import Mathlib

/-! Verification of `finder-app/writer.c`

The program is one function, `main`, which talks to the C library only:
`openlog`/`syslog`/`closelog`, `fopen`/`fprintf`/`fclose` and `perror`.
It is embedded as a state-passing function over a `World` (file contents,
system log, error stream, open handles, and the trace of library calls).
What the operating system decides during a run (whether the path can be
opened, how many bytes the device accepts, the buffer size chosen for the
stream) is the `Env` parameter.

Strings are C strings; `argv` entries are bounded by the operating system far
below `INT_MAX`, so the character count returned by `fprintf` is taken as is.
-/

namespace Writer

/-- A C string: the characters before the terminating NUL. -/
abbrev CStr := List Char

/-! ## Constants of `<syslog.h>` -/

/-- Priority `LOG_ERR` of `<syslog.h>`. -/
def LOG_ERR : Nat := 3

/-- Priority `LOG_DEBUG` of `<syslog.h>`. -/
def LOG_DEBUG : Nat := 7

/-- Option `LOG_PID` of `<syslog.h>`. -/
def LOG_PID : Nat := 1

/-- Facility `LOG_USER` of `<syslog.h>`. -/
def LOG_USER : Nat := 8

/-! ## State -/

/-- One record of the system log. -/
structure LogRecord where
  priority : Nat
  facility : Nat
  ident : CStr
  pid : Option Nat
  msg : CStr
deriving DecidableEq

/-- The settings given to `openlog`. -/
structure LogConn where
  ident : CStr
  logopt : Nat
  facility : Nat
deriving DecidableEq

/-- The two `fopen` modes that create the file: "w" truncates, "a" keeps. -/
inductive Mode where
  | w
  | a
deriving DecidableEq

/-- Where a stream sends its bytes. -/
inductive Dest where
  | stderr
  | file (path : CStr)
deriving DecidableEq

/-- A stdio stream: destination, buffer size, and the bytes still buffered. -/
structure FILE where
  dest : Dest
  bufsize : Nat
  buf : CStr
deriving DecidableEq

/-- A call of the C library, as recorded in the trace. -/
inductive Event where
  | openlog (ident : CStr) (logopt facility : Nat)
  | syslog (priority : Nat) (msg : CStr)
  | closelog
  | fopen (path : CStr) (mode : Mode) (ok : Bool)
  | fprintf (dest : Dest) (ret : Int)
  | perror (msg : CStr)
  | fclose (dest : Dest) (ret : Int)
deriving DecidableEq

/-- Everything a run can observe or change. -/
structure World where
  /-- contents of the regular files, by path -/
  fs : CStr → Option CStr
  /-- records of the system log, oldest first -/
  log : List LogRecord
  /-- bytes written to the error stream -/
  err : CStr
  /-- the system-log handle of the process, when open -/
  logConn : Option LogConn
  /-- number of file streams the process holds open -/
  streams : Nat
  /-- library calls made so far, oldest first -/
  trace : List Event

/-- What the operating system decides during one run. -/
structure Env where
  /-- whether opening the path for writing succeeds -/
  canOpen : CStr → Bool
  /-- buffer size given to a stream opened on a file -/
  bufsize : Nat
  /-- size up to which the file may grow (free space, quota); the device
  accepts bytes up to that size and reports an error for the next one -/
  limit : Nat
  /-- text of `strerror(errno)` after a failed call -/
  strerror : CStr
  /-- process id -/
  pid : Nat

/-- Replace the contents stored at one path. -/
def fsSet (fs : CStr → Option CStr) (path : CStr) (c : CStr) : CStr → Option CStr :=
  fun p => if p = path then some c else fs p

/-! ## C library -/

/-- Expansion of a printf format. The conversions the program uses are
modelled: `%s` takes the next argument verbatim (a missing one is shown as
`(null)`), `%%` is one percent sign, any other character is copied. -/
def format : CStr → List CStr → CStr
  | [], _ => []
  | '%' :: 's' :: rest, a :: args => a ++ format rest args
  | '%' :: 's' :: rest, [] => "(null)".toList ++ format rest []
  | '%' :: '%' :: rest, args => '%' :: format rest args
  | c :: rest, args => c :: format rest args

/-- The write loop under a stream: bytes are appended to the destination until
all are accepted or the device reports an error; returns how many were
accepted. The error stream accepts everything; a file accepts bytes until its
size reaches `env.limit`. -/
def osWrite (env : Env) (d : Dest) (bs : CStr) (w : World) : Nat × World :=
  match d with
  | Dest.stderr => (bs.length, { w with err := w.err ++ bs })
  | Dest.file path =>
    let cur := (w.fs path).getD []
    let n := min bs.length (env.limit - cur.length)
    (n, { w with fs := fsSet w.fs path (cur ++ bs.take n) })

/-- Hand the buffered bytes to the device. Reports whether all of them were
accepted; the buffer is empty afterwards either way, so bytes the device
refused are lost. -/
def flush (env : Env) (f : FILE) (w : World) : Bool × FILE × World :=
  match osWrite env f.dest f.buf w with
  | (n, w1) => (decide (n = f.buf.length), { f with buf := [] }, w1)

/-- Put characters into a stream one at a time; the buffer is handed to the
device whenever it is filled. Stops at the first error. -/
def putChars (env : Env) : CStr → FILE → World → Bool × FILE × World
  | [], f, w => (true, f, w)
  | c :: cs, f, w =>
    let f1 := { f with buf := f.buf ++ [c] }
    if f.bufsize ≤ f1.buf.length then
      match flush env f1 w with
      | (true, f2, w2) => putChars env cs f2 w2
      | (false, f2, w2) => (false, f2, w2)
    else putChars env cs f1 w

/-- The stream `stderr`: unbuffered. -/
def stderr : FILE := ⟨Dest.stderr, 0, []⟩

/-- `openlog(ident, logopt, facility)`. -/
def openlog (ident : CStr) (logopt facility : Nat) (w : World) : World :=
  { w with logConn := some ⟨ident, logopt, facility⟩,
           trace := w.trace ++ [Event.openlog ident logopt facility] }

/-- `syslog(priority, fmt, ...)`: one record is appended to the system log. -/
def syslog (env : Env) (priority : Nat) (fmt : CStr) (args : List CStr) (w : World) : World :=
  let msg := format fmt args
  let c := w.logConn.getD ⟨[], 0, LOG_USER⟩
  let pid := if c.logopt &&& LOG_PID ≠ 0 then some env.pid else none
  { w with log := w.log ++ [⟨priority, c.facility, c.ident, pid, msg⟩],
           logConn := some c,
           trace := w.trace ++ [Event.syslog priority msg] }

/-- `closelog()`. -/
def closelog (w : World) : World :=
  { w with logConn := none, trace := w.trace ++ [Event.closelog] }

/-- `fopen(path, mode)`: a failed open changes nothing on disk; a successful
one creates the file when absent and, in mode "w", empties it. -/
def fopen (env : Env) (path : CStr) (mode : Mode) (w : World) : Option FILE × World :=
  if env.canOpen path then
    let kept := match mode with
      | Mode.w => []
      | Mode.a => (w.fs path).getD []
    (some ⟨Dest.file path, env.bufsize, []⟩,
     { w with fs := fsSet w.fs path kept,
              streams := w.streams + 1,
              trace := w.trace ++ [Event.fopen path mode true] })
  else
    (none, { w with trace := w.trace ++ [Event.fopen path mode false] })

/-- `fprintf(stream, fmt, ...)`: the number of characters produced, or a
negative value when the stream reported an error. -/
def fprintf (env : Env) (f : FILE) (fmt : CStr) (args : List CStr) (w : World) :
    Int × FILE × World :=
  let out := format fmt args
  match putChars env out f w with
  | (ok, f1, w1) =>
    let ret : Int := if ok then out.length else -1
    (ret, f1, { w1 with trace := w1.trace ++ [Event.fprintf f.dest ret] })

/-- `perror(s)`: `s`, a colon and the description of the last error, on the
error stream. -/
def perror (env : Env) (s : CStr) (w : World) : World :=
  let msg := s ++ (": ".toList ++ (env.strerror ++ "\n".toList))
  let w1 := (osWrite env Dest.stderr msg w).2
  { w1 with trace := w1.trace ++ [Event.perror msg] }

/-- `fclose(stream)`: the buffer is flushed, then the handle is released
whether or not the flush succeeded; 0 on success, `EOF` on a flush error. -/
def fclose (env : Env) (f : FILE) (w : World) : Int × World :=
  match flush env f w with
  | (ok, _, w1) =>
    let ret : Int := if ok then 0 else -1
    (ret, { w1 with streams := w1.streams - 1,
                    trace := w1.trace ++ [Event.fclose f.dest ret] })

/-- `argv[i]` as printed by `%s`; the null pointer that ends `argv` is shown
as `(null)`. -/
def argvStr (argv : List CStr) (i : Nat) : CStr :=
  (argv.get? i).getD "(null)".toList

/-! ## The program -/

/-- `main(argc, argv)` of `finder-app/writer.c`, with `argc = argv.length`.
Returns the exit status and the world it leaves. -/
def main (env : Env) (argv : List CStr) (w0 : World) : Int × World :=
  let w1 := openlog "writer".toList LOG_PID LOG_USER w0
  if argv.length ≠ 3 then
    let w2 := syslog env LOG_ERR
      "Error: Two arguments required: <file path> <text to write>".toList [] w1
    let w3 := (fprintf env stderr
      "Usage: %s <file path> <text to write>\n".toList [argvStr argv 0] w2).2.2
    let w4 := closelog w3
    (1, w4)
  else
    let filepath := argvStr argv 1
    let text := argvStr argv 2
    match fopen env filepath Mode.w w1 with
    | (none, w2) =>
      let w3 := syslog env LOG_ERR
        "Error: Could not open file '%s' for writing".toList [filepath] w2
      let w4 := perror env "Error opening file".toList w3
      let w5 := closelog w4
      (1, w5)
    | (some file, w2) =>
      match fprintf env file "%s".toList [text] w2 with
      | (ret, file1, w3) =>
        if ret < 0 then
          let w4 := syslog env LOG_ERR
            "Error: Could not write to file '%s'".toList [filepath] w3
          let w5 := perror env "Error writing to file".toList w4
          let w6 := (fclose env file1 w5).2
          let w7 := closelog w6
          (1, w7)
        else
          let w4 := (fclose env file1 w3).2
          let w5 := syslog env LOG_DEBUG "Writing '%s' to '%s'".toList [text, filepath] w4
          let w6 := closelog w5
          (0, w6)

/-- The world in which line 31 runs: after `openlog` and the `fopen` of line 22. -/
def afterOpen (env : Env) (path : CStr) (w0 : World) : World :=
  (fopen env path Mode.w (openlog "writer".toList LOG_PID LOG_USER w0)).2

/-- The value `fprintf` returns at line 31 when the open of line 22 succeeded. -/
def writeResult (env : Env) (path text : CStr) (w0 : World) : Int :=
  (fprintf env ⟨Dest.file path, env.bufsize, []⟩ "%s".toList [text] (afterOpen env path w0)).1

/-- The record `syslog` appends in this program: identifier "writer", facility
`LOG_USER`, process id attached. -/
def record (env : Env) (priority : Nat) (msg : CStr) : LogRecord :=
  ⟨priority, LOG_USER, "writer".toList, some env.pid, msg⟩

/-- A call that opens, writes or closes a file. -/
def Event.isFileOp : Event → Bool
  | Event.fopen _ _ _ => true
  | Event.fprintf (Dest.file _) _ => true
  | Event.fclose (Dest.file _) _ => true
  | _ => false

/-- A call that acquires or releases a file handle: a successful `fopen`, or
an `fclose`. -/
def Event.isHandleOp : Event → Bool
  | Event.fopen _ _ ok => ok
  | Event.fclose _ _ => true
  | _ => false

/-- A call that acquires or releases the system-log handle. -/
def Event.isLogHandleOp : Event → Bool
  | Event.openlog _ _ _ => true
  | Event.closelog => true
  | _ => false

/-! ## Sample environments -/

/-- A world with no files, an empty log and nothing open. -/
def World.empty : World := ⟨fun _ => none, [], [], none, 0, []⟩

/-- A world whose only file is at `path`, holding `old`. -/
def World.withFile (path old : CStr) : World :=
  ⟨fsSet (fun _ => none) path old, [], [], none, 0, []⟩

/-- A run on an ordinary file system with plenty of room. -/
def envOk : Env := ⟨fun _ => true, 4096, 1000000, "Success".toList, 42⟩

/-- A run on a full device: the path may be opened, no byte is accepted. -/
def envFull : Env := ⟨fun _ => true, 4096, 0, "No space left on device".toList, 42⟩

/-- A run on a device with room for four bytes, behind a four-byte buffer. -/
def envTiny : Env := ⟨fun _ => true, 4, 4, "No space left on device".toList, 42⟩

/-- A run on a device with room for one block of 4096 bytes. -/
def envBlock : Env := ⟨fun _ => true, 4096, 4096, "No space left on device".toList, 42⟩

/-- A run in which the path cannot be opened. -/
def envDenied : Env := ⟨fun _ => false, 4096, 1000000, "Permission denied".toList, 42⟩


/-! ## Lemmas on the library model -/

theorem fsSet_same (fs : CStr → Option CStr) (p c : CStr) : fsSet fs p c p = some c := by
  simp [fsSet]

theorem fsSet_other (fs : CStr → Option CStr) (p c q : CStr) (h : q ≠ p) :
    fsSet fs p c q = fs q := by
  simp [fsSet, h]

theorem fsSet_fsSet (fs : CStr → Option CStr) (p a b : CStr) :
    fsSet (fsSet fs p a) p b = fsSet fs p b := by
  funext q
  by_cases h : q = p <;> simp [fsSet, h]

theorem fsSet_self (fs : CStr → Option CStr) (p c : CStr) (h : fs p = some c) :
    fsSet fs p c = fs := by
  funext q
  by_cases hq : q = p
  · subst hq; simp [fsSet, h]
  · simp [fsSet, hq]

/-- A lone `%s` expands to its argument, whatever the argument contains. -/
theorem format_percent_s (t : CStr) : format "%s".toList [t] = t := by
  simp [format]

/-- Characters put on the error stream reach it at once and in order. -/
theorem putChars_stderr (env : Env) (cs : CStr) (w : World) :
    putChars env cs stderr w = (true, stderr, { w with err := w.err ++ cs }) := by
  induction cs generalizing w with
  | nil => simp [putChars]
  | cons c cs ih =>
    have hfl : flush env { stderr with buf := stderr.buf ++ [c] } w
        = (true, stderr, { w with err := w.err ++ [c] }) := by
      simp [flush, osWrite, stderr]
    simp only [putChars]
    rw [if_pos (by simp [stderr]), hfl]
    simp only [ih]
    simp [List.append_assoc]

/-- Flushing a file stream: the device takes bytes up to the limit and the
buffer is left empty. -/
theorem flush_file (env : Env) (path : CStr) (bs : Nat) (buf cur : CStr) (w : World)
    (hcur : w.fs path = some cur) :
    flush env ⟨Dest.file path, bs, buf⟩ w
      = (decide (buf.length ≤ env.limit - cur.length),
         ⟨Dest.file path, bs, []⟩,
         { w with
           fs := fsSet w.fs path (cur ++ buf.take (min buf.length (env.limit - cur.length))) }) := by
  simp [flush, osWrite, hcur]

/-- What `putChars` does to a file stream. Only the file at the stream's path
changes; the bytes on disk, then the buffer, then the characters that did
not get through (refused by the device or not yet consumed) always spell the
bytes that were there followed by the input. The call succeeds when
everything fits under the limit, and after an error the file has reached the
limit, the buffer is empty and some characters did not get through. -/
theorem putChars_file (env : Env) (path : CStr) (bs : Nat) (cs : CStr) :
    ∀ (buf cur : CStr) (w : World), w.fs path = some cur →
    ∃ (ok : Bool) (buf1 cur1 rest : CStr),
      putChars env cs ⟨Dest.file path, bs, buf⟩ w
        = (ok, ⟨Dest.file path, bs, buf1⟩, { w with fs := fsSet w.fs path cur1 })
      ∧ cur1 ++ (buf1 ++ rest) = cur ++ (buf ++ cs)
      ∧ (ok = true → rest = [])
      ∧ (ok = false → buf1 = [] ∧ rest ≠ [] ∧ env.limit ≤ cur1.length)
      ∧ (cur.length ≤ env.limit → cur1.length ≤ env.limit)
      ∧ (cur.length + buf.length + cs.length ≤ env.limit → ok = true) := by
  induction cs with
  | nil =>
    intro buf cur w hcur
    refine ⟨true, buf, cur, [], ?_, by simp, by simp, by simp, fun h => h, by simp⟩
    simp [putChars, fsSet_self _ _ _ hcur]
  | cons c cs ih =>
    intro buf cur w hcur
    by_cases hfull : bs ≤ (buf ++ [c]).length
    · have hfl := flush_file env path bs (buf ++ [c]) cur w hcur
      by_cases hfit : (buf ++ [c]).length ≤ env.limit - cur.length
      · -- the flush succeeds and the rest is put after it
        have hmin : min (buf ++ [c]).length (env.limit - cur.length) = (buf ++ [c]).length :=
          Nat.min_eq_left hfit
        rw [hmin] at hfl
        simp only [List.take_length, hfit, decide_True] at hfl
        obtain ⟨ok, buf1, cur1, rest, heq, hsp, hok, hbad, hle, hall⟩ :=
          ih [] (cur ++ (buf ++ [c]))
            { w with fs := fsSet w.fs path (cur ++ (buf ++ [c])) } (fsSet_same _ _ _)
        refine ⟨ok, buf1, cur1, rest, ?_, ?_, hok, hbad, ?_, ?_⟩
        · simp only [putChars]
          rw [if_pos hfull, hfl]
          simp only [heq, fsSet_fsSet]
        · simpa [List.append_assoc] using hsp
        · intro h
          apply hle
          simp only [List.length_append] at hfit ⊢
          omega
        · intro h
          apply hall
          simp only [List.length_append, List.length_cons, List.length_nil] at h ⊢
          omega
      · -- the device refuses part of the buffer
        have hlt : env.limit - cur.length < (buf ++ [c]).length := Nat.lt_of_not_le hfit
        have hmin : min (buf ++ [c]).length (env.limit - cur.length) = env.limit - cur.length :=
          Nat.min_eq_right (Nat.le_of_lt hlt)
        rw [hmin] at hfl
        simp only [hfit, decide_False] at hfl
        refine ⟨false, [], cur ++ (buf ++ [c]).take (env.limit - cur.length),
          (buf ++ [c]).drop (env.limit - cur.length) ++ cs, ?_, ?_, by simp, ?_, ?_, ?_⟩
        · simp only [putChars]
          rw [if_pos hfull, hfl]
        · rw [List.nil_append, List.append_assoc, ← List.append_assoc (List.take _ _),
            List.take_append_drop]
          simp [List.append_assoc]
        · intro _
          refine ⟨rfl, ?_, ?_⟩
          · intro hnil
            have hdrop := (List.append_eq_nil.mp hnil).1
            have := List.drop_eq_nil_iff.mp hdrop
            omega
          · simp only [List.length_append, List.length_take] at hlt ⊢
            omega
        · intro h
          simp only [List.length_append, List.length_take] at hlt ⊢
          omega
        · intro h
          simp only [List.length_append, List.length_cons, List.length_nil] at h hlt
          omega
    · obtain ⟨ok, buf1, cur1, rest, heq, hsp, hok, hbad, hle, hall⟩ :=
        ih (buf ++ [c]) cur w hcur
      refine ⟨ok, buf1, cur1, rest, ?_, ?_, hok, hbad, hle, ?_⟩
      · simp only [putChars]
        rw [if_neg hfull, heq]
      · simpa [List.append_assoc] using hsp
      · intro h
        apply hall
        simp only [List.length_append, List.length_cons, List.length_nil] at h ⊢
        omega

/-- The message of the open-failure record: the path between quotes. -/
theorem format_open_msg (p : CStr) :
    format "Error: Could not open file '%s' for writing".toList [p]
      = "Error: Could not open file '".toList ++ p ++ "' for writing".toList := by
  simp [format]

/-- The message of the write-failure record: the path between quotes. -/
theorem format_write_msg (p : CStr) :
    format "Error: Could not write to file '%s'".toList [p]
      = "Error: Could not write to file '".toList ++ p ++ "'".toList := by
  simp [format]

/-- The message of the success record: the text, then the path. -/
theorem format_debug_msg (t p : CStr) :
    format "Writing '%s' to '%s'".toList [t, p]
      = "Writing '".toList ++ t ++ ("' to '".toList ++ p ++ "'".toList) := by
  simp [format]

/-! ## The four paths of `main` -/

/-- Wrong argument count: the whole effect of the run. -/
theorem main_usage (env : Env) (argv : List CStr) (w : World) (h : argv.length ≠ 3) :
    main env argv w = (1,
      { w with
        log := w.log ++ [record env LOG_ERR
          (format "Error: Two arguments required: <file path> <text to write>".toList [])],
        err := w.err ++ format "Usage: %s <file path> <text to write>\n".toList [argvStr argv 0],
        logConn := none,
        trace := w.trace ++
          [Event.openlog "writer".toList LOG_PID LOG_USER,
           Event.syslog LOG_ERR
             (format "Error: Two arguments required: <file path> <text to write>".toList []),
           Event.fprintf Dest.stderr
             (format "Usage: %s <file path> <text to write>\n".toList [argvStr argv 0]).length,
           Event.closelog] }) := by
  simp only [main, if_pos h, fprintf, putChars_stderr, syslog, openlog, closelog, record]
  simp [LOG_PID, stderr]

/-- Open failure: the whole effect of the run. -/
theorem main_open_fail (env : Env) (prog path text : CStr) (w : World)
    (h : env.canOpen path = false) :
    main env [prog, path, text] w = (1,
      { w with
        log := w.log ++ [record env LOG_ERR
          (format "Error: Could not open file '%s' for writing".toList [path])],
        err := w.err ++ ("Error opening file".toList ++ (": ".toList ++ (env.strerror ++ "\n".toList))),
        logConn := none,
        trace := w.trace ++
          [Event.openlog "writer".toList LOG_PID LOG_USER,
           Event.fopen path Mode.w false,
           Event.syslog LOG_ERR (format "Error: Could not open file '%s' for writing".toList [path]),
           Event.perror ("Error opening file".toList ++ (": ".toList ++ (env.strerror ++ "\n".toList))),
           Event.closelog] }) := by
  simp [main, argvStr, fopen, h, syslog, openlog, closelog, record, perror, osWrite, LOG_PID]

/-- The world after `openlog` and a successful `fopen` in mode "w". -/
theorem afterOpen_eq (env : Env) (path : CStr) (w : World) (h : env.canOpen path = true) :
    afterOpen env path w =
      { w with
        fs := fsSet w.fs path [],
        logConn := some ⟨"writer".toList, LOG_PID, LOG_USER⟩,
        streams := w.streams + 1,
        trace := w.trace ++
          [Event.openlog "writer".toList LOG_PID LOG_USER, Event.fopen path Mode.w true] } := by
  simp [afterOpen, fopen, h, openlog]

/-- The transfer of line 31 on the freshly opened stream. -/
theorem write_core (env : Env) (path text : CStr) (w : World) (h : env.canOpen path = true) :
    ∃ (ok : Bool) (buf1 cur1 rest : CStr),
      putChars env text ⟨Dest.file path, env.bufsize, []⟩ (afterOpen env path w)
        = (ok, ⟨Dest.file path, env.bufsize, buf1⟩,
           { afterOpen env path w with fs := fsSet w.fs path cur1 })
      ∧ cur1 ++ (buf1 ++ rest) = text
      ∧ (ok = true → rest = [])
      ∧ (ok = false → buf1 = [] ∧ rest ≠ [] ∧ env.limit ≤ cur1.length)
      ∧ cur1.length ≤ env.limit
      ∧ (text.length ≤ env.limit → ok = true) := by
  have hfs : (afterOpen env path w).fs path = some [] := by
    rw [afterOpen_eq env path w h]; exact fsSet_same _ _ _
  obtain ⟨ok, buf1, cur1, rest, heq, hsp, hok, hbad, hle, hall⟩ :=
    putChars_file env path env.bufsize text [] [] (afterOpen env path w) hfs
  refine ⟨ok, buf1, cur1, rest, ?_, by simpa using hsp, hok, hbad, hle (by simp), ?_⟩
  · rw [heq, afterOpen_eq env path w h]
    simp only [fsSet_fsSet]
  · intro hl
    exact hall (by simpa using hl)

/-- When `putChars` succeeds on a file stream whose buffer is not yet full:
the buffer is handed over each time it holds `max 1 bs` bytes, so the call
succeeds exactly when the last full block still fits under the limit. -/
theorem putChars_file_ok_iff (env : Env) (path : CStr) (bs : Nat) (cs : CStr) :
    ∀ (buf cur : CStr) (w : World), w.fs path = some cur → buf.length < max 1 bs →
      ((putChars env cs ⟨Dest.file path, bs, buf⟩ w).1 = true ↔
        ((buf.length + cs.length) / max 1 bs = 0
          ∨ cur.length + (buf.length + cs.length) / max 1 bs * max 1 bs ≤ env.limit)) := by
  have hB : 0 < max 1 bs := by omega
  induction cs with
  | nil =>
    intro buf cur w _ hbuf
    simp [putChars, Nat.div_eq_of_lt hbuf]
  | cons c cs ih =>
    intro buf cur w hcur hbuf
    by_cases hfull : bs ≤ (buf ++ [c]).length
    · have hlenB : buf.length + 1 = max 1 bs := by
        simp only [List.length_append, List.length_cons, List.length_nil] at hfull
        omega
      have hk : (buf.length + (c :: cs).length) / max 1 bs = cs.length / max 1 bs + 1 := by
        have : buf.length + (c :: cs).length = max 1 bs + cs.length := by
          simp only [List.length_cons]; omega
        rw [this, Nat.add_div_left _ hB]
      have hfl := flush_file env path bs (buf ++ [c]) cur w hcur
      have hlen1 : (buf ++ [c]).length = max 1 bs := by simpa using hlenB
      by_cases hfit : (buf ++ [c]).length ≤ env.limit - cur.length
      · rw [Nat.min_eq_left hfit] at hfl
        simp only [List.take_length, hfit, decide_True] at hfl
        have hrec := ih [] (cur ++ (buf ++ [c]))
          { w with fs := fsSet w.fs path (cur ++ (buf ++ [c])) } (fsSet_same _ _ _) hB
        simp only [putChars]
        rw [if_pos hfull, hfl]
        simp only [hrec, hk, Nat.succ_mul, List.length_nil, Nat.zero_add, List.length_append cur,
          hlen1]
        rw [hlen1] at hfit
        constructor
        · rintro (h0 | h)
          · right; rw [h0]; omega
          · right; omega
        · rintro (h0 | h)
          · exact absurd h0 (Nat.succ_ne_zero _)
          · right; omega
      · have hlt : env.limit - cur.length < (buf ++ [c]).length := Nat.lt_of_not_le hfit
        rw [Nat.min_eq_right (Nat.le_of_lt hlt)] at hfl
        simp only [hfit, decide_False] at hfl
        simp only [putChars]
        rw [if_pos hfull, hfl]
        simp only [hk, Nat.succ_mul]
        rw [hlen1] at hlt
        constructor
        · intro h; cases h
        · rintro (h0 | h)
          · exact absurd h0 (Nat.succ_ne_zero _)
          · omega
    · have hbuf1 : (buf ++ [c]).length < max 1 bs := by
        simp only [List.length_append, List.length_cons, List.length_nil] at hfull ⊢
        omega
      have hrec := ih (buf ++ [c]) cur w hcur hbuf1
      have hl : (buf ++ [c]).length + cs.length = buf.length + (c :: cs).length := by
        simp only [List.length_append, List.length_cons, List.length_nil]; omega
      simp only [putChars]
      rw [if_neg hfull, hrec, hl]

/-- What is on disk after flushing `buf` behind `cur` under the limit. -/
theorem take_limit_append (limit : Nat) (cur buf : CStr) (h : cur.length ≤ limit) :
    cur ++ buf.take (min buf.length (limit - cur.length)) = (cur ++ buf).take limit := by
  rw [List.take_append_eq_append_take, List.take_of_length_le h]
  congr 1
  rw [List.take_eq_take]
  simp [Nat.min_comm]

/-- Closing a file stream: what fits under the limit reaches the disk, and the
handle is released either way. -/
theorem fclose_file (env : Env) (path : CStr) (bs : Nat) (buf cur : CStr) (w : World)
    (hcur : w.fs path = some cur) (hle : cur.length ≤ env.limit) :
    fclose env ⟨Dest.file path, bs, buf⟩ w
      = ((if (cur ++ buf).length ≤ env.limit then 0 else -1),
         { w with
           fs := fsSet w.fs path ((cur ++ buf).take env.limit),
           streams := w.streams - 1,
           trace := w.trace ++ [Event.fclose (Dest.file path)
             (if (cur ++ buf).length ≤ env.limit then 0 else -1)] }) := by
  have hdec : (buf.length ≤ env.limit - cur.length) ↔ ((cur ++ buf).length ≤ env.limit) := by
    simp only [List.length_append]; omega
  simp only [fclose, flush_file env path bs buf cur w hcur, take_limit_append env.limit cur buf hle,
    decide_eq_true_eq, hdec]

/-- A successful open: the whole effect of the run, by the outcome of the
`fprintf` of line 31. Whatever that outcome, the file ends up holding the
first `env.limit` bytes of the text. -/
theorem main_opened (env : Env) (prog path text : CStr) (w : World)
    (h : env.canOpen path = true) :
    ∃ ok : Bool,
      writeResult env path text w = (if ok then (text.length : Int) else -1)
      ∧ (ok = false → env.limit < text.length)
      ∧ (text.length ≤ env.limit → ok = true)
      ∧ main env [prog, path, text] w =
        (if ok then
          (0, { w with
            fs := fsSet w.fs path (text.take env.limit),
            log := w.log ++ [record env LOG_DEBUG
              (format "Writing '%s' to '%s'".toList [text, path])],
            logConn := none,
            trace := w.trace ++
              [Event.openlog "writer".toList LOG_PID LOG_USER,
               Event.fopen path Mode.w true,
               Event.fprintf (Dest.file path) text.length,
               Event.fclose (Dest.file path) (if text.length ≤ env.limit then 0 else -1),
               Event.syslog LOG_DEBUG (format "Writing '%s' to '%s'".toList [text, path]),
               Event.closelog] })
        else
          (1, { w with
            fs := fsSet w.fs path (text.take env.limit),
            log := w.log ++ [record env LOG_ERR
              (format "Error: Could not write to file '%s'".toList [path])],
            err := w.err ++
              ("Error writing to file".toList ++ (": ".toList ++ (env.strerror ++ "\n".toList))),
            logConn := none,
            trace := w.trace ++
              [Event.openlog "writer".toList LOG_PID LOG_USER,
               Event.fopen path Mode.w true,
               Event.fprintf (Dest.file path) (-1),
               Event.syslog LOG_ERR (format "Error: Could not write to file '%s'".toList [path]),
               Event.perror
                 ("Error writing to file".toList ++ (": ".toList ++ (env.strerror ++ "\n".toList))),
               Event.fclose (Dest.file path) 0,
               Event.closelog] })) := by
  obtain ⟨ok, buf1, cur1, rest, heq, hsp, hok, hbad, hle, hall⟩ := write_core env path text w h
  have hfo : fopen env path Mode.w (openlog "writer".toList LOG_PID LOG_USER w)
      = (some ⟨Dest.file path, env.bufsize, []⟩, afterOpen env path w) := by
    simp [afterOpen, fopen, h]
  have hwr : writeResult env path text w = (if ok then (text.length : Int) else -1) := by
    simp only [writeResult, fprintf, format_percent_s, heq]
  refine ⟨ok, hwr, ?_, hall, ?_⟩
  · intro hf
    obtain ⟨_, hne, hlim⟩ := hbad hf
    have hlen : text.length = cur1.length + (buf1.length + rest.length) := by
      rw [← hsp]; simp
    have : 0 < rest.length := List.length_pos.mpr hne
    omega
  · cases ok with
    | true =>
      have hrest : rest = [] := hok rfl
      subst hrest
      have htext : text = cur1 ++ buf1 := by simpa using hsp.symm
      simp only [main, argvStr, List.length_cons, List.length_nil, List.get?_cons_succ,
        List.get?_cons_zero, Option.getD_some, hfo, fprintf, format_percent_s, heq]
      rw [if_neg (by simp), if_neg (by simp)]
      rw [fclose_file env path env.bufsize buf1 cur1 _ (fsSet_same _ _ _) hle, ← htext]
      simp [afterOpen_eq env path w h, syslog, closelog, record, LOG_PID, fsSet_fsSet]
    | false =>
      obtain ⟨hnil, _, hlim⟩ := hbad rfl
      subst hnil
      have hlen : cur1.length = env.limit := Nat.le_antisymm hle hlim
      have htake : (cur1 ++ []).take env.limit = text.take env.limit := by
        rw [← hsp, ← hlen]; simp
      have hfits : (cur1 ++ ([] : CStr)).length ≤ env.limit := by
        simp only [List.append_nil]; exact hle
      simp only [main, argvStr, List.length_cons, List.length_nil, List.get?_cons_succ,
        List.get?_cons_zero, Option.getD_some, hfo, fprintf, format_percent_s, heq]
      rw [if_neg (by simp), if_pos (by simp)]
      rw [fclose_file env path env.bufsize [] cur1 _
        (by simp [perror, osWrite, syslog, fsSet_same]) hle, htake, if_pos hfits]
      simp [afterOpen_eq env path w h, syslog, closelog, perror, osWrite, record, LOG_PID,
        fsSet_fsSet]

/-- When line 31 reports an error: the stream hands over blocks of
`max 1 env.bufsize` bytes during `fprintf`, and the call fails exactly when
the full blocks of the text do not fit under the limit. What is left in the
buffer is only handed over by `fclose`. -/
theorem writeResult_neg_iff (env : Env) (path text : CStr) (w : World)
    (h : env.canOpen path = true) :
    writeResult env path text w < 0 ↔
      env.limit < text.length / max 1 env.bufsize * max 1 env.bufsize := by
  have hfs : (afterOpen env path w).fs path = some [] := by
    rw [afterOpen_eq env path w h]; exact fsSet_same _ _ _
  have hiff := putChars_file_ok_iff env path env.bufsize text [] [] (afterOpen env path w) hfs
    (by simp)
  simp only [List.length_nil, Nat.zero_add] at hiff
  have hwr : writeResult env path text w
      = if (putChars env text ⟨Dest.file path, env.bufsize, []⟩ (afterOpen env path w)).1 = true
        then (text.length : Int) else -1 := by
    simp only [writeResult, fprintf, format_percent_s]
  rw [hwr]
  by_cases hok : (putChars env text ⟨Dest.file path, env.bufsize, []⟩ (afterOpen env path w)).1 = true
  · rw [if_pos hok]
    have := hiff.mp hok
    constructor
    · intro hneg
      have : (0 : Int) ≤ (text.length : Int) := Int.ofNat_nonneg _
      omega
    · intro hlt
      rcases this with h0 | hle
      · rw [h0] at hlt; omega
      · omega
  · rw [if_neg hok]
    constructor
    · intro _
      by_contra hcon
      exact hok (hiff.mpr (Or.inr (Nat.le_of_not_lt hcon)))
    · intro _; decide

/-- The run after a successful open whose `fprintf` reported an error. -/
theorem main_write_fail (env : Env) (prog path text : CStr) (w : World)
    (hopen : env.canOpen path = true) (hwrite : writeResult env path text w < 0) :
    env.limit < text.length
    ∧ main env [prog, path, text] w =
        (1, { w with
          fs := fsSet w.fs path (text.take env.limit),
          log := w.log ++ [record env LOG_ERR
            (format "Error: Could not write to file '%s'".toList [path])],
          err := w.err ++
            ("Error writing to file".toList ++ (": ".toList ++ (env.strerror ++ "\n".toList))),
          logConn := none,
          trace := w.trace ++
            [Event.openlog "writer".toList LOG_PID LOG_USER,
             Event.fopen path Mode.w true,
             Event.fprintf (Dest.file path) (-1),
             Event.syslog LOG_ERR (format "Error: Could not write to file '%s'".toList [path]),
             Event.perror
               ("Error writing to file".toList ++ (": ".toList ++ (env.strerror ++ "\n".toList))),
             Event.fclose (Dest.file path) 0,
             Event.closelog] }) := by
  obtain ⟨ok, hwr, hlim, _, hmain⟩ := main_opened env prog path text w hopen
  cases ok with
  | true =>
    rw [hwr] at hwrite
    have : (0 : Int) ≤ (text.length : Int) := Int.ofNat_nonneg _
    simp only [if_true] at hwrite
    omega
  | false => exact ⟨hlim rfl, by simpa using hmain⟩

/-- The run after a successful open whose `fprintf` reported success. -/
theorem main_write_ok (env : Env) (prog path text : CStr) (w : World)
    (hopen : env.canOpen path = true) (hwrite : 0 ≤ writeResult env path text w) :
    main env [prog, path, text] w =
      (0, { w with
        fs := fsSet w.fs path (text.take env.limit),
        log := w.log ++ [record env LOG_DEBUG
          (format "Writing '%s' to '%s'".toList [text, path])],
        logConn := none,
        trace := w.trace ++
          [Event.openlog "writer".toList LOG_PID LOG_USER,
           Event.fopen path Mode.w true,
           Event.fprintf (Dest.file path) text.length,
           Event.fclose (Dest.file path) (if text.length ≤ env.limit then 0 else -1),
           Event.syslog LOG_DEBUG (format "Writing '%s' to '%s'".toList [text, path]),
           Event.closelog] }) := by
  obtain ⟨ok, hwr, _, _, hmain⟩ := main_opened env prog path text w hopen
  cases ok with
  | true => simpa using hmain
  | false =>
    rw [hwr] at hwrite
    simp at hwrite

/-- The run in which the open succeeds and the whole text fits on the device. -/
theorem main_fits (env : Env) (prog path text : CStr) (w : World)
    (hopen : env.canOpen path = true) (hroom : text.length ≤ env.limit) :
    (main env [prog, path, text] w).1 = 0
    ∧ (main env [prog, path, text] w).2.fs path = some text
    ∧ ∀ q, q ≠ path → (main env [prog, path, text] w).2.fs q = w.fs q := by
  obtain ⟨ok, _, _, hfit, hmain⟩ := main_opened env prog path text w hopen
  rw [hmain, hfit hroom]
  refine ⟨rfl, ?_, ?_⟩
  · simp [fsSet_same, List.take_of_length_le hroom]
  · intro q hq
    simp [fsSet_other _ _ _ _ hq]

/-! ## The claims -/

/-- C1: for every path and every content (empty or not, with or without a
trailing newline), when the program is run with exactly these two arguments,
the open succeeds and the write succeeds (the device accepts every byte of
content), the exit status is 0 and the file at path holds exactly content;
no other file changes. -/
theorem main_writes_exactly_content (env : Env) (prog path content : CStr) (w : World)
    (hopen : env.canOpen path = true) (hwrite : content.length ≤ env.limit) :
    (main env [prog, path, content] w).1 = 0
    ∧ (main env [prog, path, content] w).2.fs path = some content
    ∧ ∀ q, q ≠ path → (main env [prog, path, content] w).2.fs q = w.fs q := by
  obtain ⟨ok, _, _, hfit, hmain⟩ := main_opened env prog path content w hopen
  rw [hmain, hfit hwrite]
  refine ⟨rfl, ?_, ?_⟩
  · simp [fsSet_same, List.take_of_length_le hwrite]
  · intro q hq
    simp [fsSet_other _ _ _ _ hq]

/-- C1, at the empty content and at a content without trailing newline. -/
theorem main_writes_exactly_content_witness :
    ((main envOk ["writer".toList, "/tmp/out.txt".toList, []] World.empty).1 = 0
      ∧ (main envOk ["writer".toList, "/tmp/out.txt".toList, []] World.empty).2.fs
          "/tmp/out.txt".toList = some []
      ∧ ∀ q, q ≠ "/tmp/out.txt".toList →
          (main envOk ["writer".toList, "/tmp/out.txt".toList, []] World.empty).2.fs q
            = World.empty.fs q)
    ∧ (main envOk ["writer".toList, "/tmp/out.txt".toList, "hello world".toList] World.empty).2.fs
          "/tmp/out.txt".toList = some "hello world".toList :=
  ⟨main_writes_exactly_content envOk "writer".toList "/tmp/out.txt".toList [] World.empty
      (by decide) (by decide),
   (main_writes_exactly_content envOk "writer".toList "/tmp/out.txt".toList
      "hello world".toList World.empty (by decide) (by decide)).2.1⟩

/-- C2: for every invocation whose argument count is not two (argc ≠ 3), main
returns 1 and performs no file operation: the calls it makes contain no
fopen, no write to a file and no fclose, no file handle is acquired, and the
file system is the same after the run as before it. -/
theorem main_wrong_argc_touches_no_file (env : Env) (argv : List CStr) (w : World)
    (hargc : argv.length ≠ 3) :
    (main env argv w).1 = 1
    ∧ (main env argv w).2.fs = w.fs
    ∧ (main env argv w).2.streams = w.streams
    ∧ ∃ evs, (main env argv w).2.trace = w.trace ++ evs ∧ ∀ e ∈ evs, e.isFileOp = false := by
  rw [main_usage env argv w hargc]
  refine ⟨rfl, rfl, rfl, _, rfl, ?_⟩
  intro e he
  simp only [List.mem_cons, List.mem_singleton, List.not_mem_nil, or_false] at he
  rcases he with rfl | rfl | rfl | rfl <;> rfl

/-- C2, at the invocation with one argument. -/
theorem main_wrong_argc_touches_no_file_witness :
    (main envOk ["writer".toList, "only-one-arg".toList] World.empty).1 = 1
    ∧ (main envOk ["writer".toList, "only-one-arg".toList] World.empty).2.fs = World.empty.fs
    ∧ (main envOk ["writer".toList, "only-one-arg".toList] World.empty).2.streams
        = World.empty.streams
    ∧ ∃ evs, (main envOk ["writer".toList, "only-one-arg".toList] World.empty).2.trace
        = World.empty.trace ++ evs ∧ ∀ e ∈ evs, e.isFileOp = false :=
  main_wrong_argc_touches_no_file envOk ["writer".toList, "only-one-arg".toList] World.empty
    (by decide)

/-- C3: for every path and every two contents c1 and c2, running the program
successfully (open and write succeed) with (path, c1) and then with
(path, c2) leaves the file holding exactly c2, whatever the lengths of c1 and
c2: after the first run the file holds c1, after the second it holds c2, and
both runs exit with status 0. -/
theorem main_second_run_overwrites (env1 env2 : Env) (prog path c1 c2 : CStr) (w : World)
    (hopen1 : env1.canOpen path = true) (hwrite1 : c1.length ≤ env1.limit)
    (hopen2 : env2.canOpen path = true) (hwrite2 : c2.length ≤ env2.limit) :
    (main env1 [prog, path, c1] w).1 = 0
    ∧ (main env1 [prog, path, c1] w).2.fs path = some c1
    ∧ (main env2 [prog, path, c2] (main env1 [prog, path, c1] w).2).1 = 0
    ∧ (main env2 [prog, path, c2] (main env1 [prog, path, c1] w).2).2.fs path = some c2 := by
  obtain ⟨h1, h2, _⟩ := main_fits env1 prog path c1 w hopen1 hwrite1
  obtain ⟨h3, h4, _⟩ := main_fits env2 prog path c2
    (main env1 [prog, path, c1] w).2 hopen2 hwrite2
  exact ⟨h1, h2, h3, h4⟩

/-- C3, with a long first content, then a shorter one, then the empty one. -/
theorem main_second_run_overwrites_witness :
    ((main envOk ["writer".toList, "/tmp/out.txt".toList, "hello world".toList] World.empty).1 = 0
      ∧ (main envOk ["writer".toList, "/tmp/out.txt".toList, "hello world".toList]
          World.empty).2.fs "/tmp/out.txt".toList = some "hello world".toList
      ∧ (main envOk ["writer".toList, "/tmp/out.txt".toList, "bye".toList]
          (main envOk ["writer".toList, "/tmp/out.txt".toList, "hello world".toList]
            World.empty).2).1 = 0
      ∧ (main envOk ["writer".toList, "/tmp/out.txt".toList, "bye".toList]
          (main envOk ["writer".toList, "/tmp/out.txt".toList, "hello world".toList]
            World.empty).2).2.fs "/tmp/out.txt".toList = some "bye".toList)
    ∧ (main envOk ["writer".toList, "/tmp/out.txt".toList, []]
          (main envOk ["writer".toList, "/tmp/out.txt".toList, "hello world".toList]
            World.empty).2).2.fs "/tmp/out.txt".toList = some [] :=
  ⟨main_second_run_overwrites envOk envOk "writer".toList "/tmp/out.txt".toList
      "hello world".toList "bye".toList World.empty
      (by decide) (by decide) (by decide) (by decide),
   (main_second_run_overwrites envOk envOk "writer".toList "/tmp/out.txt".toList
      "hello world".toList [] World.empty
      (by decide) (by decide) (by decide) (by decide)).2.2.2⟩

/-- C4: for every invocation with two arguments in which opening path for
writing fails, main returns 1, makes no write to a file and no fclose after
the failed fopen, and leaves the file system unchanged: no file is created
and a file at path keeps its contents. -/
theorem main_open_failure_changes_nothing (env : Env) (prog path text : CStr) (w : World)
    (hopen : env.canOpen path = false) :
    (main env [prog, path, text] w).1 = 1
    ∧ (main env [prog, path, text] w).2.fs = w.fs
    ∧ (main env [prog, path, text] w).2.streams = w.streams
    ∧ ∃ evs, (main env [prog, path, text] w).2.trace = w.trace ++ evs
        ∧ Event.fopen path Mode.w false ∈ evs
        ∧ ∀ e ∈ evs, e ≠ Event.fopen path Mode.w false → e.isFileOp = false := by
  rw [main_open_fail env prog path text w hopen]
  refine ⟨rfl, rfl, rfl, _, rfl, by simp, ?_⟩
  intro e he hne
  simp only [List.mem_cons, List.mem_singleton, List.not_mem_nil, or_false] at he
  rcases he with rfl | rfl | rfl | rfl | rfl
  · rfl
  · exact absurd rfl hne
  · rfl
  · rfl
  · rfl

/-- C4, at a protected path holding earlier data. -/
theorem main_open_failure_changes_nothing_witness :
    (main envDenied ["writer".toList, "/root/protected.txt".toList, "data".toList]
        (World.withFile "/root/protected.txt".toList "kept".toList)).1 = 1
    ∧ (main envDenied ["writer".toList, "/root/protected.txt".toList, "data".toList]
        (World.withFile "/root/protected.txt".toList "kept".toList)).2.fs
        = (World.withFile "/root/protected.txt".toList "kept".toList).fs
    ∧ (main envDenied ["writer".toList, "/root/protected.txt".toList, "data".toList]
        (World.withFile "/root/protected.txt".toList "kept".toList)).2.streams
        = (World.withFile "/root/protected.txt".toList "kept".toList).streams
    ∧ ∃ evs, (main envDenied ["writer".toList, "/root/protected.txt".toList, "data".toList]
        (World.withFile "/root/protected.txt".toList "kept".toList)).2.trace
          = (World.withFile "/root/protected.txt".toList "kept".toList).trace ++ evs
        ∧ Event.fopen "/root/protected.txt".toList Mode.w false ∈ evs
        ∧ ∀ e ∈ evs, e ≠ Event.fopen "/root/protected.txt".toList Mode.w false →
            e.isFileOp = false :=
  main_open_failure_changes_nothing envDenied "writer".toList "/root/protected.txt".toList
    "data".toList (World.withFile "/root/protected.txt".toList "kept".toList) (by decide)

/-- C5: for every invocation with two arguments in which the open succeeds
and the write reports an error (the fprintf of line 31 returns a negative
value), main appends one error-level record whose message contains the path,
prints the error description to the error stream, closes the file handle it
opened (one fclose on that file, after the fopen, whatever fclose returns),
and returns 1; it makes no debug-level syslog call. -/
theorem main_write_error_reported (env : Env) (prog path text : CStr) (w : World)
    (hopen : env.canOpen path = true) (hwrite : writeResult env path text w < 0) :
    (main env [prog, path, text] w).1 = 1
    ∧ (∃ r, (main env [prog, path, text] w).2.log = w.log ++ [r]
        ∧ r.priority = LOG_ERR ∧ path <:+: r.msg)
    ∧ (main env [prog, path, text] w).2.err
        = w.err ++ ("Error writing to file: ".toList ++ (env.strerror ++ "\n".toList))
    ∧ (main env [prog, path, text] w).2.streams = w.streams
    ∧ ∃ evs, (main env [prog, path, text] w).2.trace = w.trace ++ evs
        ∧ (∃ rc, evs.filter Event.isHandleOp
            = [Event.fopen path Mode.w true, Event.fclose (Dest.file path) rc])
        ∧ ∀ msg, Event.syslog LOG_DEBUG msg ∉ evs := by
  obtain ⟨_, hmain⟩ := main_write_fail env prog path text w hopen hwrite
  rw [hmain]
  refine ⟨rfl, ⟨_, rfl, rfl, ?_⟩, ?_, rfl, _, rfl, ⟨0, ?_⟩, ?_⟩
  · exact ⟨"Error: Could not write to file '".toList, "'".toList,
      (format_write_msg path).symm⟩
  · simp
  · simp [List.filter, Event.isHandleOp]
  · intro msg hmem
    simp [LOG_ERR, LOG_DEBUG] at hmem

/-- C5, on a device that takes four of the eight bytes. -/
theorem main_write_error_reported_witness :
    (main envTiny ["writer".toList, "/tmp/out.txt".toList, "abcdefgh".toList] World.empty).1 = 1
    ∧ (∃ r, (main envTiny ["writer".toList, "/tmp/out.txt".toList, "abcdefgh".toList]
          World.empty).2.log = World.empty.log ++ [r]
        ∧ r.priority = LOG_ERR ∧ "/tmp/out.txt".toList <:+: r.msg)
    ∧ (main envTiny ["writer".toList, "/tmp/out.txt".toList, "abcdefgh".toList]
          World.empty).2.err
        = World.empty.err ++ ("Error writing to file: ".toList ++ (envTiny.strerror ++ "\n".toList))
    ∧ (main envTiny ["writer".toList, "/tmp/out.txt".toList, "abcdefgh".toList]
          World.empty).2.streams = World.empty.streams
    ∧ ∃ evs, (main envTiny ["writer".toList, "/tmp/out.txt".toList, "abcdefgh".toList]
          World.empty).2.trace = World.empty.trace ++ evs
        ∧ (∃ rc, evs.filter Event.isHandleOp
            = [Event.fopen "/tmp/out.txt".toList Mode.w true,
               Event.fclose (Dest.file "/tmp/out.txt".toList) rc])
        ∧ ∀ msg, Event.syslog LOG_DEBUG msg ∉ evs :=
  main_write_error_reported envTiny "writer".toList "/tmp/out.txt".toList "abcdefgh".toList
    World.empty (by decide) (by decide)

/-- C7: every run appends exactly one record to the system log, and its
severity matches the exit status. On each failure branch (wrong argument
count, open failure, write error reported by fprintf) the record is at error
level and the exit status is 1; on the success branch it is at debug level,
its message contains both the content and the path, and the exit status is
0. The branches exclude each other, so no run logs both. -/
theorem main_logs_exactly_once (env : Env) (argv : List CStr) (w : World) :
    ∃ r, (main env argv w).2.log = w.log ++ [r]
      ∧ (((main env argv w).1 = 1 ∧ r.priority = LOG_ERR
            ∧ (argv.length ≠ 3
              ∨ (argv.length = 3 ∧ env.canOpen (argvStr argv 1) = false)
              ∨ (argv.length = 3 ∧ env.canOpen (argvStr argv 1) = true
                  ∧ writeResult env (argvStr argv 1) (argvStr argv 2) w < 0)))
        ∨ ((main env argv w).1 = 0 ∧ r.priority = LOG_DEBUG
            ∧ argv.length = 3 ∧ env.canOpen (argvStr argv 1) = true
            ∧ 0 ≤ writeResult env (argvStr argv 1) (argvStr argv 2) w
            ∧ argvStr argv 2 <:+: r.msg ∧ argvStr argv 1 <:+: r.msg)) := by
  by_cases hargc : argv.length = 3
  · obtain ⟨prog, path, text, rfl⟩ : ∃ a b c, argv = [a, b, c] := by
      match argv, hargc with
      | [a, b, c], _ => exact ⟨a, b, c, rfl⟩
    have h1 : argvStr [prog, path, text] 1 = path := rfl
    have h2 : argvStr [prog, path, text] 2 = text := rfl
    rw [h1, h2]
    by_cases hopen : env.canOpen path = true
    · by_cases hwrite : writeResult env path text w < 0
      · obtain ⟨_, hmain⟩ := main_write_fail env prog path text w hopen hwrite
        rw [hmain]
        exact ⟨_, rfl, Or.inl ⟨rfl, rfl, Or.inr (Or.inr ⟨rfl, hopen, hwrite⟩)⟩⟩
      · have hge : 0 ≤ writeResult env path text w := Int.not_lt.mp hwrite
        rw [main_write_ok env prog path text w hopen hge]
        refine ⟨_, rfl, Or.inr ⟨rfl, rfl, rfl, hopen, hge, ?_, ?_⟩⟩
        · exact ⟨"Writing '".toList, "' to '".toList ++ path ++ "'".toList,
            (format_debug_msg text path).symm⟩
        · refine ⟨"Writing '".toList ++ text ++ "' to '".toList, "'".toList, ?_⟩
          rw [format_debug_msg]
          simp [List.append_assoc, record]
    · have hclosed : env.canOpen path = false := by simpa using hopen
      rw [main_open_fail env prog path text w hclosed]
      exact ⟨_, rfl, Or.inl ⟨rfl, rfl, Or.inr (Or.inl ⟨rfl, hclosed⟩)⟩⟩
  · rw [main_usage env argv w hargc]
    exact ⟨_, rfl, Or.inl ⟨rfl, rfl, Or.inl hargc⟩⟩

/-- Had the content been passed as the template, a content with a directive
would not reach the file unchanged. -/
theorem format_as_template_differs :
    format "100%%".toList [] ≠ "100%%".toList := by
  decide

/-- C8: the content is data, never a format template: the only template of
the write is "%s", whose expansion is the content itself whatever characters
it holds ("%d", "%s", "%n", "%%" included), so after a successful run (open
and write succeed) fprintf has reported exactly that many characters and the
file equals the content character for character. -/
theorem content_is_never_a_template (env : Env) (prog path content : CStr) (w : World)
    (hopen : env.canOpen path = true) (hwrite : content.length ≤ env.limit) :
    format "%s".toList [content] = content
    ∧ writeResult env path content w = content.length
    ∧ (main env [prog, path, content] w).1 = 0
    ∧ (main env [prog, path, content] w).2.fs path = some content := by
  obtain ⟨ok, hwr, _, hfit, hmain⟩ := main_opened env prog path content w hopen
  have hok := hfit hwrite
  subst hok
  refine ⟨format_percent_s content, by simpa using hwr, ?_, ?_⟩
  · rw [hmain]; rfl
  · rw [hmain]
    simp [fsSet_same, List.take_of_length_le hwrite]

/-- C8, at a content made of format directives. -/
theorem content_is_never_a_template_witness :
    format "%s".toList ["%d %s %n %% 100%".toList] = "%d %s %n %% 100%".toList
    ∧ writeResult envOk "/tmp/out.txt".toList "%d %s %n %% 100%".toList World.empty
        = ("%d %s %n %% 100%".toList.length : Int)
    ∧ (main envOk ["writer".toList, "/tmp/out.txt".toList, "%d %s %n %% 100%".toList]
        World.empty).1 = 0
    ∧ (main envOk ["writer".toList, "/tmp/out.txt".toList, "%d %s %n %% 100%".toList]
        World.empty).2.fs "/tmp/out.txt".toList = some "%d %s %n %% 100%".toList :=
  content_is_never_a_template envOk "writer".toList "/tmp/out.txt".toList
    "%d %s %n %% 100%".toList World.empty (by decide) (by decide)

/-- C9: on every exit path of main the resources acquired so far are
released before it returns. The system-log handle is opened first and closed
last, once each, on all four paths. A file handle is acquired only by a
successful fopen, and then it is released by exactly one fclose, after the
fopen and on the same file; when no file was opened no fclose is made. At
the return no handle is left open. -/
theorem main_releases_handles (env : Env) (argv : List CStr) (w : World) :
    (main env argv w).2.logConn = none
    ∧ (main env argv w).2.streams = w.streams
    ∧ ∃ evs, (main env argv w).2.trace = w.trace ++ evs
        ∧ evs.head? = some (Event.openlog "writer".toList LOG_PID LOG_USER)
        ∧ evs.getLast? = some Event.closelog
        ∧ evs.filter Event.isLogHandleOp
            = [Event.openlog "writer".toList LOG_PID LOG_USER, Event.closelog]
        ∧ ((argv.length = 3 ∧ env.canOpen (argvStr argv 1) = true
              ∧ ∃ rc, evs.filter Event.isHandleOp
                  = [Event.fopen (argvStr argv 1) Mode.w true,
                     Event.fclose (Dest.file (argvStr argv 1)) rc])
          ∨ ((argv.length ≠ 3 ∨ env.canOpen (argvStr argv 1) = false)
              ∧ evs.filter Event.isHandleOp = [])) := by
  by_cases hargc : argv.length = 3
  · obtain ⟨prog, path, text, rfl⟩ : ∃ a b c, argv = [a, b, c] := by
      match argv, hargc with
      | [a, b, c], _ => exact ⟨a, b, c, rfl⟩
    have h1 : argvStr [prog, path, text] 1 = path := rfl
    rw [h1]
    by_cases hopen : env.canOpen path = true
    · by_cases hwrite : writeResult env path text w < 0
      · obtain ⟨_, hmain⟩ := main_write_fail env prog path text w hopen hwrite
        rw [hmain]
        refine ⟨rfl, rfl, _, rfl, rfl, rfl, ?_, Or.inl ⟨rfl, hopen, 0, ?_⟩⟩
        · simp [List.filter, Event.isLogHandleOp]
        · simp [List.filter, Event.isHandleOp]
      · have hge : 0 ≤ writeResult env path text w := Int.not_lt.mp hwrite
        rw [main_write_ok env prog path text w hopen hge]
        refine ⟨rfl, rfl, _, rfl, rfl, rfl, ?_,
          Or.inl ⟨rfl, hopen, (if text.length ≤ env.limit then 0 else -1), ?_⟩⟩
        · simp [List.filter, Event.isLogHandleOp]
        · simp [List.filter, Event.isHandleOp]
    · have hclosed : env.canOpen path = false := by simpa using hopen
      rw [main_open_fail env prog path text w hclosed]
      refine ⟨rfl, rfl, _, rfl, rfl, rfl, ?_, Or.inr ⟨Or.inr hclosed, ?_⟩⟩
      · simp [List.filter, Event.isLogHandleOp]
      · simp [List.filter, Event.isHandleOp]
  · rw [main_usage env argv w hargc]
    refine ⟨rfl, rfl, _, rfl, rfl, rfl, ?_, Or.inr ⟨Or.inl hargc, ?_⟩⟩
    · simp [List.filter, Event.isLogHandleOp]
    · simp [List.filter, Event.isHandleOp]

/-- C10, as stated, fails: a file that holds 4096 bytes is overwritten with
8192 bytes that start with the same 4096, on a device with room for 4096
bytes. The open succeeds, fprintf reports an error after the first block,
main returns 1, and the file holds what it held before the run. -/
theorem failed_write_can_leave_old_contents :
    envBlock.canOpen "/tmp/out.txt".toList = true
    ∧ (World.withFile "/tmp/out.txt".toList (List.replicate 4096 'a')).fs "/tmp/out.txt".toList
        = some (List.replicate 4096 'a')
    ∧ writeResult envBlock "/tmp/out.txt".toList (List.replicate 8192 'a')
        (World.withFile "/tmp/out.txt".toList (List.replicate 4096 'a')) < 0
    ∧ (main envBlock ["writer".toList, "/tmp/out.txt".toList, List.replicate 8192 'a']
        (World.withFile "/tmp/out.txt".toList (List.replicate 4096 'a'))).1 = 1
    ∧ (main envBlock ["writer".toList, "/tmp/out.txt".toList, List.replicate 8192 'a']
        (World.withFile "/tmp/out.txt".toList (List.replicate 4096 'a'))).2.fs
          "/tmp/out.txt".toList
        = some (List.replicate 4096 'a') := by
  have hopen : envBlock.canOpen "/tmp/out.txt".toList = true := rfl
  have hwrite : writeResult envBlock "/tmp/out.txt".toList (List.replicate 8192 'a')
      (World.withFile "/tmp/out.txt".toList (List.replicate 4096 'a')) < 0 := by
    rw [writeResult_neg_iff _ _ _ _ hopen, List.length_replicate]
    decide
  obtain ⟨_, hmain⟩ := main_write_fail envBlock "writer".toList "/tmp/out.txt".toList
    (List.replicate 8192 'a') (World.withFile "/tmp/out.txt".toList (List.replicate 4096 'a'))
    hopen hwrite
  have htake : (List.replicate 8192 'a').take envBlock.limit = List.replicate 4096 'a' := by
    rw [List.take_replicate]
    rfl
  refine ⟨hopen, ?_, hwrite, ?_, ?_⟩
  · simp only [World.withFile, fsSet_same]
  · rw [hmain]
  · rw [hmain, htake]
    simp only [fsSet_same]

/-- C10, amended: once the open has succeeded the previous contents are
discarded whatever happens next. For every run in which the open succeeds
and fprintf then reports an error, main returns 1 and the file holds exactly
the bytes the device accepted, a proper beginning of the content (of
`env.limit` bytes, possibly none) that does not depend on what the file held
before; so the file no longer holds old unless old is equal to these bytes.
No other file changes. -/
theorem failed_write_leaves_accepted_bytes (env : Env) (prog path text : CStr) (w : World)
    (hopen : env.canOpen path = true) (hwrite : writeResult env path text w < 0) :
    (main env [prog, path, text] w).1 = 1
    ∧ env.limit < text.length
    ∧ (main env [prog, path, text] w).2.fs path = some (text.take env.limit)
    ∧ (∀ old, w.fs path = some old → old ≠ text.take env.limit →
        (main env [prog, path, text] w).2.fs path ≠ some old)
    ∧ ∀ q, q ≠ path → (main env [prog, path, text] w).2.fs q = w.fs q := by
  obtain ⟨hlim, hmain⟩ := main_write_fail env prog path text w hopen hwrite
  rw [hmain]
  refine ⟨rfl, hlim, fsSet_same _ _ _, ?_, ?_⟩
  · intro old _ hne heq
    have : some (text.take env.limit) = some old := by
      rw [← heq]; exact (fsSet_same _ _ _).symm
    exact hne (Option.some.inj this).symm
  · intro q hq
    exact fsSet_other _ _ _ _ hq

/-- C10 amended, on a device that takes four of the eight bytes, over a file
that held other data. -/
theorem failed_write_leaves_accepted_bytes_witness :
    (main envTiny ["writer".toList, "/tmp/out.txt".toList, "abcdefgh".toList]
        (World.withFile "/tmp/out.txt".toList "old data".toList)).1 = 1
    ∧ envTiny.limit < "abcdefgh".toList.length
    ∧ (main envTiny ["writer".toList, "/tmp/out.txt".toList, "abcdefgh".toList]
        (World.withFile "/tmp/out.txt".toList "old data".toList)).2.fs "/tmp/out.txt".toList
        = some ("abcdefgh".toList.take envTiny.limit)
    ∧ (∀ old, (World.withFile "/tmp/out.txt".toList "old data".toList).fs "/tmp/out.txt".toList
          = some old → old ≠ "abcdefgh".toList.take envTiny.limit →
        (main envTiny ["writer".toList, "/tmp/out.txt".toList, "abcdefgh".toList]
          (World.withFile "/tmp/out.txt".toList "old data".toList)).2.fs "/tmp/out.txt".toList
          ≠ some old)
    ∧ ∀ q, q ≠ "/tmp/out.txt".toList →
        (main envTiny ["writer".toList, "/tmp/out.txt".toList, "abcdefgh".toList]
          (World.withFile "/tmp/out.txt".toList "old data".toList)).2.fs q
          = (World.withFile "/tmp/out.txt".toList "old data".toList).fs q :=
  failed_write_leaves_accepted_bytes envTiny "writer".toList "/tmp/out.txt".toList
    "abcdefgh".toList (World.withFile "/tmp/out.txt".toList "old data".toList)
    (by decide) (by decide)

/-- Every run that exits with status 0 although the content does not fit on
the device: fprintf only filled the buffer, the error came from the flush
inside fclose, and the result of fclose is not looked at. The file is left
short, the only record logged is the debug one, and nothing is printed. -/
theorem exit_zero_with_short_file (env : Env) (prog path text : CStr) (w : World)
    (hopen : env.canOpen path = true) (hfprintf : 0 ≤ writeResult env path text w)
    (hroom : env.limit < text.length) :
    (main env [prog, path, text] w).1 = 0
    ∧ (main env [prog, path, text] w).2.fs path = some (text.take env.limit)
    ∧ (main env [prog, path, text] w).2.fs path ≠ some text
    ∧ (main env [prog, path, text] w).2.log
        = w.log ++ [record env LOG_DEBUG (format "Writing '%s' to '%s'".toList [text, path])]
    ∧ (main env [prog, path, text] w).2.err = w.err
    ∧ Event.fclose (Dest.file path) (-1) ∈ (main env [prog, path, text] w).2.trace := by
  rw [main_write_ok env prog path text w hopen hfprintf]
  refine ⟨rfl, fsSet_same _ _ _, ?_, rfl, rfl, ?_⟩
  · show fsSet w.fs path (text.take env.limit) path ≠ some text
    rw [fsSet_same]
    intro heq
    have hlen := congrArg List.length (Option.some.inj heq)
    rw [List.length_take] at hlen
    omega
  · simp [Nat.not_le.mpr hroom]

/-- C6 fails on the code. On a full device (the open succeeds, no byte is
accepted) the run `writer /tmp/out.txt hello` exits with status 0 and logs
the debug record of a success, yet the file is empty: the five bytes stayed
in the buffer during fprintf, the flush inside fclose failed (fclose
returned `EOF`), and main does not look at that result. No error record is
logged and nothing is printed on the error stream. -/
theorem flush_error_at_close_is_swallowed :
    envFull.canOpen "/tmp/out.txt".toList = true
    ∧ (main envFull ["writer".toList, "/tmp/out.txt".toList, "hello".toList] World.empty).1 = 0
    ∧ (main envFull ["writer".toList, "/tmp/out.txt".toList, "hello".toList]
        World.empty).2.fs "/tmp/out.txt".toList = some []
    ∧ (main envFull ["writer".toList, "/tmp/out.txt".toList, "hello".toList]
        World.empty).2.fs "/tmp/out.txt".toList ≠ some "hello".toList
    ∧ (main envFull ["writer".toList, "/tmp/out.txt".toList, "hello".toList] World.empty).2.log
        = [record envFull LOG_DEBUG "Writing 'hello' to '/tmp/out.txt'".toList]
    ∧ (main envFull ["writer".toList, "/tmp/out.txt".toList, "hello".toList] World.empty).2.err
        = []
    ∧ (main envFull ["writer".toList, "/tmp/out.txt".toList, "hello".toList] World.empty).2.trace
        = [Event.openlog "writer".toList LOG_PID LOG_USER,
           Event.fopen "/tmp/out.txt".toList Mode.w true,
           Event.fprintf (Dest.file "/tmp/out.txt".toList) 5,
           Event.fclose (Dest.file "/tmp/out.txt".toList) (-1),
           Event.syslog LOG_DEBUG "Writing 'hello' to '/tmp/out.txt'".toList,
           Event.closelog] := by
  decide

end Writer
